import Mathlib

/-
Shallow embedding of the streaming-ingestion core of the `stare` repository
(src/stare.py and src/newstare.py): price formatting, change calculation,
venue frame handlers, the OKX receive loop, the price-history deque and the
traffic accumulator, together with proofs checking the specification's
claims against these definitions.
-/

namespace Stare

/-! ### Decimal rendering

Models Python's fixed-point format specifiers `:.Nf` (used by
`format_price`, `calculate_change` and `update_traffic_stats` in
src/stare.py) and the grouped form `:,.2f` (src/stare.py:309).
Numbers are carried as exact rationals. -/

/-- The character for the decimal digit `d % 10`. -/
def digitChar (d : ℕ) : Char := Char.ofNat (48 + d % 10)

/-- Least-significant-first decimal digits of `m`, fuel-driven so that the
definition is structural (kernel-reducible).  Called with fuel `m + 1`,
which is always sufficient. -/
def natDigitsRev : ℕ → ℕ → List Char
  | 0, _ => []
  | fuel + 1, m => if m < 10 then [digitChar m] else digitChar (m % 10) :: natDigitsRev fuel (m / 10)

/-- Most-significant-first decimal digits of `m` (no leading zeros, `"0"` for zero). -/
def natDigits (m : ℕ) : List Char := (natDigitsRev (m + 1) m).reverse

/-- Exactly `n` decimal digits of `m` (most significant first), as used for
the fractional part of a fixed-point rendering. -/
def fracDigits (n m : ℕ) : List Char :=
  (List.range n).reverse.map (fun i => digitChar (m / 10 ^ i % 10))

/-- Insert a thousands separator after every third digit of a
least-significant-first digit list. -/
def group3Rev : List Char → List Char
  | a :: b :: c :: d :: rest => a :: b :: c :: ',' :: group3Rev (d :: rest)
  | l => l

/-- Thousands grouping of a most-significant-first digit list
(models the `,` option of Python's format mini-language). -/
def groupThousands (ds : List Char) : List Char := (group3Rev ds.reverse).reverse

/-- Round-half-even to an integer, the rounding Python's `format` applies. -/
def roundHalfEven (q : ℚ) : ℤ :=
  if q - (Rat.floor q : ℚ) < 1 / 2 then Rat.floor q
  else if 1 / 2 < q - (Rat.floor q : ℚ) then Rat.floor q + 1
  else if Rat.floor q % 2 = 0 then Rat.floor q else Rat.floor q + 1

/-- The character list of `q` rendered with exactly `n` decimals, for `0 ≤ q`. -/
def fixedDigits (q : ℚ) (n : ℕ) : List Char :=
  natDigits ((roundHalfEven (q * 10 ^ n)).toNat / 10 ^ n) ++
    '.' :: fracDigits n ((roundHalfEven (q * 10 ^ n)).toNat % 10 ^ n)

/-- Models `f"{q:.nf}"` for `n ≥ 1` (the source only uses n = 2, 4, 6, 8). -/
def formatFixed (q : ℚ) (n : ℕ) : String :=
  if q < 0 then ⟨'-' :: fixedDigits (-q) n⟩ else ⟨fixedDigits q n⟩

/-- Models `f"{q:,.2f}"` for `0 ≤ q` (src/stare.py:309 applies it to prices ≥ 1000). -/
def formatGrouped (q : ℚ) : String :=
  ⟨groupThousands (natDigits ((roundHalfEven (q * 100)).toNat / 100)) ++
    '.' :: fracDigits 2 ((roundHalfEven (q * 100)).toNat % 100)⟩

/-- `PriceMonitor.format_price`, src/stare.py:306-315 (identical inline code
at src/newstare.py:294-302). -/
def format_price (price : ℚ) : String :=
  if 1000 ≤ price then formatGrouped price
  else if 1 ≤ price then formatFixed price 4
  else if 0.0001 ≤ price then formatFixed price 6
  else formatFixed price 8

/-- Number of characters after the last `'.'` of a string. -/
def decimalCount (s : String) : ℕ :=
  (s.data.reverse.takeWhile (fun ch => ch != '.')).length

/-- The string contains a thousands separator. -/
def hasComma (s : String) : Prop := ',' ∈ s.data

instance (s : String) : Decidable (hasComma s) := by unfold hasComma; infer_instance

/-! ### Structural lemmas about the renderers -/

lemma digitChar_ne_dot (d : ℕ) : digitChar d ≠ '.' := by
  unfold digitChar
  have hd : d % 10 < 10 := Nat.mod_lt _ (by norm_num)
  set k := d % 10 with hk
  interval_cases k <;> decide

lemma fracDigits_length (n m : ℕ) : (fracDigits n m).length = n := by
  simp [fracDigits]

lemma fracDigits_ne_dot {n m : ℕ} {ch : Char} (h : ch ∈ fracDigits n m) : ch ≠ '.' := by
  simp only [fracDigits, List.mem_map, List.mem_reverse, List.mem_range] at h
  obtain ⟨i, -, rfl⟩ := h
  exact digitChar_ne_dot _

lemma takeWhile_append_dot (l r : List Char) (hl : ∀ ch ∈ l, ch ≠ '.') :
    (l ++ '.' :: r).takeWhile (fun ch => ch != '.') = l := by
  induction l with
  | nil => simp [List.takeWhile]
  | cons a t ih =>
    have ha : (a != '.') = true := by
      simpa using hl a (List.mem_cons_self a t)
    simp only [List.cons_append, List.takeWhile, ha, List.cons.injEq, true_and]
    exact ih fun ch hch => hl ch (List.mem_cons_of_mem _ hch)

lemma decimalCount_mk (pre post : List Char) (h : ∀ ch ∈ post, ch ≠ '.') :
    decimalCount ⟨pre ++ '.' :: post⟩ = post.length := by
  unfold decimalCount
  show ((pre ++ '.' :: post).reverse.takeWhile _).length = _
  rw [List.reverse_append, List.reverse_cons, List.append_assoc, List.singleton_append,
    takeWhile_append_dot _ _ (fun ch hch => h ch (List.mem_reverse.1 hch)), List.length_reverse]

lemma decimalCount_formatFixed (q : ℚ) (n : ℕ) : decimalCount (formatFixed q n) = n := by
  unfold formatFixed fixedDigits
  split
  · rw [← List.cons_append, decimalCount_mk _ _ (fun ch hch => fracDigits_ne_dot hch),
      fracDigits_length]
  · rw [decimalCount_mk _ _ (fun ch hch => fracDigits_ne_dot hch), fracDigits_length]

lemma decimalCount_formatGrouped (q : ℚ) : decimalCount (formatGrouped q) = 2 := by
  unfold formatGrouped
  rw [decimalCount_mk _ _ (fun ch hch => fracDigits_ne_dot hch), fracDigits_length]

lemma group3Rev_comma : ∀ {l : List Char}, 4 ≤ l.length → ',' ∈ group3Rev l
  | a :: b :: c :: d :: rest, _ => by
    simp [group3Rev]

lemma comma_mem_groupThousands {ds : List Char} (h : 4 ≤ ds.length) :
    ',' ∈ groupThousands ds := by
  unfold groupThousands
  rw [List.mem_reverse]
  exact group3Rev_comma (by simpa using h)

lemma one_le_natDigitsRev_length (fuel m : ℕ) (hf : 0 < fuel) :
    1 ≤ (natDigitsRev fuel m).length := by
  match fuel, hf with
  | f + 1, _ =>
    rw [natDigitsRev]
    split <;> simp

lemma natDigitsRev_length_ge (k : ℕ) :
    ∀ m fuel, m < fuel → 10 ^ k ≤ m → k + 1 ≤ (natDigitsRev fuel m).length := by
  induction k with
  | zero =>
    intro m fuel hf _
    exact one_le_natDigitsRev_length _ _ (by omega)
  | succ k ih =>
    intro m fuel hf hm
    have h10 : 10 ≤ m := le_trans (by calc 10 = 10 ^ 1 := by norm_num
                                         _ ≤ 10 ^ (k + 1) := Nat.pow_le_pow_right (by norm_num) (by omega)) hm
    match fuel, hf with
    | f + 1, hf =>
      rw [natDigitsRev]
      rw [if_neg (by omega)]
      simp only [List.length_cons]
      have hdiv : 10 ^ k ≤ m / 10 := by
        rw [Nat.le_div_iff_mul_le (by norm_num)]
        calc 10 ^ k * 10 = 10 ^ (k + 1) := by rw [pow_succ]
          _ ≤ m := hm
      have hflt : m / 10 < f := by omega
      exact Nat.succ_le_succ (ih (m / 10) f hflt hdiv)

lemma natDigits_length_ge_four {m : ℕ} (hm : 1000 ≤ m) : 4 ≤ (natDigits m).length := by
  unfold natDigits
  rw [List.length_reverse]
  have : (10 : ℕ) ^ 3 ≤ m := by norm_num; omega
  exact natDigitsRev_length_ge 3 m (m + 1) (Nat.lt_succ_self m) this

lemma roundHalfEven_ge (N : ℤ) (q : ℚ) (h : (N : ℚ) ≤ q) : N ≤ roundHalfEven q := by
  have hf : N ≤ Rat.floor q := Rat.le_floor.2 h
  unfold roundHalfEven
  split
  · exact hf
  · split
    · omega
    · split <;> omega

lemma hasComma_formatGrouped {q : ℚ} (h : 1000 ≤ q) : hasComma (formatGrouped q) := by
  unfold formatGrouped hasComma
  show ',' ∈ groupThousands _ ++ _
  rw [List.mem_append]
  left
  apply comma_mem_groupThousands
  apply natDigits_length_ge_four
  have h1 : (100000 : ℤ) ≤ roundHalfEven (q * 100) := by
    apply roundHalfEven_ge
    push_cast
    linarith
  have h2 : (100000 : ℕ) ≤ (roundHalfEven (q * 100)).toNat := by
    omega
  omega

/-! ### Derived-value calculator

`PriceMonitor.calculate_change`, src/stare.py:317-336.  The source encodes
the classification in the label colour: `green` for a strictly positive
change, `red` otherwise, and `black` when no percent is computed. -/

/-- `PriceMonitor.calculate_change`, src/stare.py:317-336: returns the
display text and the colour. -/
def calculate_change (pair : String) (last_price open_price high_24h low_24h : ℚ)
    (formatted_price : String) : String × String :=
  if 0 < open_price then
    if 0 < (last_price - open_price) / open_price * 100 then
      (pair ++ ": " ++ formatted_price ++ " (+" ++
        formatFixed ((last_price - open_price) / open_price * 100) 2 ++ "%)\n" ++
        "24h高: " ++ formatFixed high_24h 4 ++ " 低: " ++ formatFixed low_24h 4, "green")
    else
      (pair ++ ": " ++ formatted_price ++ " (" ++
        formatFixed ((last_price - open_price) / open_price * 100) 2 ++ "%)\n" ++
        "24h高: " ++ formatFixed high_24h 4 ++ " 低: " ++ formatFixed low_24h 4, "red")
  else
    (pair ++ ": " ++ formatted_price, "black")

/-- The change percent the calculator derives (src/stare.py:319-320):
defined only when the 24h open is strictly positive. -/
def changePercent (last_price open_price : ℚ) : Option ℚ :=
  if 0 < open_price then some ((last_price - open_price) / open_price * 100) else none

/-- The spec's `DisplayUpdate.classification` enumeration (spec §3). -/
inductive Classification
  | Up
  | Down
  | Flat
  | Unknown
deriving DecidableEq, Repr

/-- Maps the source's label colours to the spec's classification names:
`green` ↔ `Up`, `red` ↔ `Down`, `black` ↔ `Unknown`. -/
def colorToClass (color : String) : Classification :=
  if color = "green" then Classification.Up
  else if color = "red" then Classification.Down
  else Classification.Unknown

/-! ### Vendor frames and venue handlers -/

/-- A raw field value of a vendor frame, as seen by Python's `float(...)`:
either a value `float` parses (carrying the parsed number) or one it
raises `ValueError`/`TypeError` on. -/
inductive RawField
  | num (q : ℚ)
  | mal
deriving DecidableEq, Repr

/-- Python's `float(...)` applied to a raw field. -/
def floatOf : RawField → Option ℚ
  | RawField.num q => some q
  | RawField.mal => none

/-- An inbound OKX ticker object (`data[0]` of a frame): the fields the
handlers read, each possibly absent. -/
structure OkxTicker where
  instId : Option String
  last : Option RawField
  open24h : Option RawField
  high24h : Option RawField
  low24h : Option RawField
deriving DecidableEq, Repr

/-- `PriceMonitor.handle_okx_ticker_update`, src/stare.py:262-278.  A raised
exception (missing key, unparsable number) is caught and logged: the frame
yields nothing.  On success the handler schedules a label update
`(pair, display_text, color)`. -/
def handle_okx_ticker_update (ticker_data : OkxTicker) : Option (String × String × String) := do
  let pair ← ticker_data.instId
  let last_price ← ticker_data.last.bind floatOf
  let open_price ← ticker_data.open24h.bind floatOf
  let high_24h ← ticker_data.high24h.bind floatOf
  let low_24h ← ticker_data.low24h.bind floatOf
  let formatted_price := format_price last_price
  let dc := calculate_change pair last_price open_price high_24h low_24h formatted_price
  pure (pair, dc.1, dc.2)

/-- An inbound Binance ticker object: short and long spellings of each
price field, each possibly absent. -/
structure BinanceTicker where
  s : Option String
  c : Option RawField
  lastPrice : Option RawField
  o : Option RawField
  openPrice : Option RawField
  h : Option RawField
  highPrice : Option RawField
  l : Option RawField
  lowPrice : Option RawField
deriving DecidableEq, Repr

/-- `float(ticker_data.get(short, ticker_data.get(long, 0)))`,
src/stare.py:291-294: the short key wins, then the long key, then the
default `0`; only a present-but-unparsable value fails. -/
def binanceField (short long : Option RawField) : Option ℚ :=
  floatOf (short.getD (long.getD (RawField.num 0)))

/-- `original_pair.replace('-', '').replace('SWAP', '').upper()`,
src/stare.py:289: drop separators, drop (pre-uppercase) `SWAP`
occurrences left to right, then upper-case. -/
def removeSwapAux : List Char → List Char
  | 'S' :: 'W' :: 'A' :: 'P' :: rest => removeSwapAux rest
  | ch :: rest => ch :: removeSwapAux rest
  | [] => []

/-- The inbound-matching normalization of src/stare.py:289. -/
def clean_pair (p : String) : String :=
  ⟨(removeSwapAux (p.data.filter (fun ch => ch != '-'))).map Char.toUpper⟩

/-- One Binance subscription channel string, src/stare.py:222:
`f"{pair.lower()}@ticker"` (lower-casing only). -/
def binanceChannel (pair : String) : String :=
  ⟨pair.data.map Char.toLower⟩ ++ "@ticker"

/-- The `params` list of the Binance subscribe frame, src/stare.py:219-225. -/
def binance_subscribe_params (selected_pairs : List String) : List String :=
  selected_pairs.map binanceChannel

/-- The `for original_pair in self.selected_pairs` loop of
`PriceMonitor.handle_binance_ticker_update`, src/stare.py:287-301: scan the
selected pairs in order, handle the first whose normalized form equals the
inbound symbol, then `break`.  A parse failure at the matched pair raises,
is caught at the function level and drops the frame. -/
def binanceMatchLoop (pairs : List String) (symbol : String) (t : BinanceTicker) :
    Option (String × String × String) :=
  match pairs with
  | [] => none
  | original_pair :: rest =>
    if clean_pair original_pair = symbol then do
      let last_price ← binanceField t.c t.lastPrice
      let open_price ← binanceField t.o t.openPrice
      let high_24h ← binanceField t.h t.highPrice
      let low_24h ← binanceField t.l t.lowPrice
      let formatted_price := format_price last_price
      let dc := calculate_change original_pair last_price open_price high_24h low_24h
        formatted_price
      pure (original_pair, dc.1, dc.2)
    else binanceMatchLoop rest symbol t

/-- `PriceMonitor.handle_binance_ticker_update`, src/stare.py:280-304:
`symbol = ticker_data.get('s', '')`, then the match loop. -/
def handle_binance_ticker_update (selected_pairs : List String) (t : BinanceTicker) :
    Option (String × String × String) :=
  binanceMatchLoop selected_pairs (t.s.getD "") t

/-! ### Price-history deque (newstare)

`collections.deque(maxlen=...)`, created at src/newstare.py:36 and appended
at src/newstare.py:291: appending to a full deque discards the item at the
opposite (oldest) end. -/

/-- `deque(maxlen := cap).append(x)` for `cap ≥ 1`: drop the oldest entry
when full, then append on the right. -/
def dequeAppend (cap : ℕ) (buf : List ℚ) (x : ℚ) : List ℚ :=
  if buf.length < cap then buf ++ [x] else buf.drop 1 ++ [x]

/-- Feed a sequence of prices into an initially-empty history buffer. -/
def feedPrices (cap : ℕ) (xs : List ℚ) : List ℚ :=
  xs.foldl (dequeAppend cap) []

/-! ### `PriceMonitor.handle_ticker_update` of src/newstare.py:283-323

Per-instrument state is the `price_history` dictionary (pair ↦ bounded
price deque) with its capacity `max_history_points`; the timestamp deque
(wall-clock `datetime.now()`) is outside the embedding.  A raised
exception (missing key, unparsable number, unknown pair) is caught before
the history append, so a failing frame leaves the state unchanged and
yields nothing. -/

/-- The mutable state of a newstare `PriceMonitor` used by its handler. -/
structure NSState where
  max_history_points : ℕ
  price_history : List (String × List ℚ)
deriving DecidableEq, Repr

/-- Replace the binding of `k` in an association list (Python dict update
for an existing key). -/
def assocSet (k : String) (v : List ℚ) : List (String × List ℚ) → List (String × List ℚ)
  | [] => []
  | (k₀, v₀) :: rest => if k₀ = k then (k₀, v) :: rest else (k₀, v₀) :: assocSet k v rest

/-- `PriceMonitor.handle_ticker_update`, src/newstare.py:283-323: parse
`instId`, `last`, `open24h`, append to the pair's history, then build the
display text and colour exactly as the inline code does (no high/low line
in this variant). -/
def handle_ticker_update (st : NSState) (ticker_data : OkxTicker) :
    NSState × Option (String × String × String) :=
  match (do
      let pair ← ticker_data.instId
      let last_price ← ticker_data.last.bind floatOf
      let open_price ← ticker_data.open24h.bind floatOf
      let buf ← st.price_history.lookup pair
      pure (pair, last_price, open_price, buf) : Option (String × ℚ × ℚ × List ℚ)) with
  | none => (st, none)
  | some (pair, last_price, open_price, buf) =>
    let dc :=
      if 0 < open_price then
        if 0 < (last_price - open_price) / open_price * 100 then
          (pair ++ ": " ++ format_price last_price ++ " (+" ++
            formatFixed ((last_price - open_price) / open_price * 100) 2 ++ "%)", "green")
        else
          (pair ++ ": " ++ format_price last_price ++ " (" ++
            formatFixed ((last_price - open_price) / open_price * 100) 2 ++ "%)", "red")
      else
        (pair ++ ": " ++ format_price last_price, "black")
    ({ max_history_points := st.max_history_points
       price_history :=
         assocSet pair (dequeAppend st.max_history_points buf last_price) st.price_history },
     some (pair, dc.1, dc.2))

/-! ### Traffic accumulator -/

/-- The counter update of `PriceMonitor.update_traffic_stats`,
src/stare.py:386-388: `self.traffic_bytes += bytes_count`. -/
def update_traffic_stats (traffic_bytes bytes_count : ℕ) : ℕ :=
  traffic_bytes + bytes_count

/-- The human-scaled readout derived from the raw counter on each update,
src/stare.py:389-394. -/
def traffic_label (traffic_bytes : ℕ) : String :=
  if 1024 < (traffic_bytes : ℚ) / 1024 then
    "流量统计: " ++ formatFixed ((traffic_bytes : ℚ) / 1024 / 1024) 2 ++ " MB"
  else
    "流量统计: " ++ formatFixed ((traffic_bytes : ℚ) / 1024) 2 ++ " KB"

/-- Total counter after a sequence of received frame sizes (the receive
loop calls `update_traffic_stats(len(message))` per frame,
src/stare.py:184). -/
def feedTraffic (sizes : List ℕ) : ℕ :=
  sizes.foldl update_traffic_stats 0

/-! ### The OKX inner receive loop, src/stare.py:174-206

One `LoopState` records the wall clock (seconds), `last_msg_time`, the
number of heartbeat probes sent, and whether the inner loop has exited
(forcing the outer loop to reconnect).  Each `LoopEvent` is one iteration
of the inner `while`:

* `frame dt` — `ws.recv` returns a frame `dt` seconds in (`dt ≤ 5`);
  `last_msg_time` is refreshed, and the post-receive check of line 190
  sends a ping only if more than 20 s elapsed since `last_msg_time` —
  with instantaneous processing that is never.
* `timeout ok` — `asyncio.TimeoutError` after the 5 s receive timeout
  (lines 193-199): send `{"op":"ping"}`; on send failure break out for a
  reconnect, otherwise keep looping.  `last_msg_time` is not touched.
* `procError received` — the generic handler of lines 200-206: log, sleep
  one second, and break only if more than 30 s passed since
  `last_msg_time` (which was refreshed at line 181 only when the failing
  iteration did receive a frame). -/

structure LoopState where
  now : ℕ
  last_msg_time : ℕ
  pings : ℕ
  exited : Bool
deriving DecidableEq, Repr

inductive LoopEvent
  | frame (dt : ℕ)
  | timeout (pingOk : Bool)
  | procError (received : Bool)
deriving DecidableEq, Repr

/-- One iteration of the inner receive loop of
`PriceMonitor.okx_websocket_connect`, src/stare.py:177-206. -/
def okxLoopStep (s : LoopState) (e : LoopEvent) : LoopState :=
  if s.exited then s
  else
    match e with
    | LoopEvent.frame dt =>
      if (s.now + dt) - (s.now + dt) > 20 then
        { now := s.now + dt, last_msg_time := s.now + dt, pings := s.pings + 1, exited := false }
      else
        { now := s.now + dt, last_msg_time := s.now + dt, pings := s.pings, exited := false }
    | LoopEvent.timeout pingOk =>
      if pingOk then
        { s with now := s.now + 5, pings := s.pings + 1 }
      else
        { s with now := s.now + 5, exited := true }
    | LoopEvent.procError received =>
      if (s.now + 1) - (if received then s.now else s.last_msg_time) > 30 then
        { s with now := s.now + 1,
                 last_msg_time := if received then s.now else s.last_msg_time,
                 exited := true }
      else
        { s with now := s.now + 1,
                 last_msg_time := if received then s.now else s.last_msg_time }

/-- Run the inner receive loop from the state right after subscription
(`last_msg_time = time.time()`, src/stare.py:174). -/
def okxLoopRun (events : List LoopEvent) : LoopState :=
  events.foldl okxLoopStep { now := 0, last_msg_time := 0, pings := 0, exited := false }

/-! ### Helper lemmas -/

lemma foldl_dequeAppend (cap : ℕ) (hc : 1 ≤ cap) :
    ∀ (xs acc : List ℚ), acc.length ≤ cap →
      xs.foldl (dequeAppend cap) acc = (acc ++ xs).drop (acc.length + xs.length - cap) := by
  intro xs
  induction xs with
  | nil =>
    intro acc hacc
    simp only [List.foldl_nil, List.append_nil, List.length_nil]
    rw [show acc.length + 0 - cap = 0 by omega, List.drop_zero]
  | cons x xs ih =>
    intro acc hacc
    simp only [List.foldl_cons]
    by_cases hlt : acc.length < cap
    · rw [show dequeAppend cap acc x = acc ++ [x] from if_pos hlt,
        ih (acc ++ [x]) (by simp only [List.length_append, List.length_singleton, List.length_cons, List.length_nil]; omega),
        List.append_assoc, List.singleton_append]
      have hAB : (acc ++ [x]).length + xs.length - cap = acc.length + (x :: xs).length - cap := by
        simp only [List.length_append, List.length_singleton, List.length_cons, List.length_nil]
        omega
      rw [hAB]
    · have hlen : acc.length = cap := by omega
      rw [show dequeAppend cap acc x = acc.drop 1 ++ [x] from if_neg hlt,
        ih (acc.drop 1 ++ [x])
          (by simp only [List.length_append, List.length_drop, List.length_singleton, List.length_cons, List.length_nil]; omega)]
      have hA : (acc.drop 1 ++ [x]).length + xs.length - cap = xs.length := by
        simp only [List.length_append, List.length_drop, List.length_singleton, List.length_cons, List.length_nil]
        omega
      have hB : acc.length + (x :: xs).length - cap = xs.length + 1 := by
        simp only [List.length_cons]
        omega
      have hdrop : acc.drop 1 ++ (x :: xs) = (acc ++ x :: xs).drop 1 :=
        (List.drop_append_of_le_length (by omega)).symm
      rw [List.append_assoc, List.singleton_append, hA, hB, hdrop, List.drop_drop,
        Nat.add_comm 1 xs.length]

lemma foldl_update_traffic (sizes : List ℕ) :
    ∀ a, sizes.foldl update_traffic_stats a = a + sizes.sum := by
  induction sizes with
  | nil => intro a; simp
  | cons n t ih =>
    intro a
    simp only [List.foldl_cons, List.sum_cons, update_traffic_stats, ih]
    omega

lemma binanceMatchLoop_no_match (pairs : List String) (symbol : String) (t : BinanceTicker)
    (hno : ∀ p ∈ pairs, clean_pair p ≠ symbol) :
    binanceMatchLoop pairs symbol t = none := by
  induction pairs with
  | nil => rfl
  | cons q rest ih =>
    simp only [binanceMatchLoop]
    rw [if_neg (hno q (List.mem_cons_self _ _))]
    exact ih fun p hp => hno p (List.mem_cons_of_mem _ hp)

/-! ### The claims -/

/-- C1: the spec claims that in the `Subscribed` state 6 seconds of silence
emit exactly one heartbeat probe (which the code does: the single receive
timeout at the 5-second mark sends one ping) and that total silence beyond
30 seconds forces the inner receive loop to exit even when every heartbeat
send succeeds.  Evaluating the loop at seven consecutive receive timeouts
with every ping send succeeding — 35 seconds of total silence — shows the
inner loop still running: the 30-second dead-link check of
src/stare.py:205 sits only in the generic exception branch, which a silent
link never takes, so the code never reconnects while ping sends succeed. -/
theorem okx_silence_keeps_looping :
    okxLoopRun [LoopEvent.timeout true] =
      { now := 5, last_msg_time := 0, pings := 1, exited := false } ∧
    okxLoopRun (List.replicate 7 (LoopEvent.timeout true)) =
      { now := 35, last_msg_time := 0, pings := 7, exited := false } := by
  constructor <;> decide

/-- C7: a price-history buffer of capacity `cap ≥ 1` keeps exactly the last
`cap` appended prices in insertion order (so its length never exceeds the
capacity and a full insertion evicts exactly the oldest entry). -/
theorem price_history_fifo (cap : ℕ) (hc : 1 ≤ cap) (xs : List ℚ) :
    feedPrices cap xs = xs.drop (xs.length - cap) ∧ (feedPrices cap xs).length ≤ cap := by
  have h := foldl_dequeAppend cap hc xs [] (by simp)
  simp only [List.nil_append, List.length_nil, Nat.zero_add] at h
  unfold feedPrices
  rw [h]
  exact ⟨rfl, by simp only [List.length_drop]; omega⟩

/-- C8: the traffic counter is a monotone sum of received frame byte
lengths — feeding `[500, 600]` from zero yields exactly `1100`, each update
only ever adds, the total is the plain sum of the sizes, and the scaled
KB/MB label is computed from the raw counter on read. -/
theorem traffic_counter_monotone_sum :
    feedTraffic [500, 600] = 1100 ∧
    (∀ traffic_bytes bytes_count,
      traffic_bytes ≤ update_traffic_stats traffic_bytes bytes_count) ∧
    (∀ sizes : List ℕ, feedTraffic sizes = sizes.sum) ∧
    traffic_label 1100 = "流量统计: " ++ formatFixed (((1100 : ℕ) : ℚ) / 1024) 2 ++ " KB" := by
  refine ⟨rfl, ?_, ?_, ?_⟩
  · intro tb n
    unfold update_traffic_stats
    omega
  · intro sizes
    unfold feedTraffic
    rw [foldl_update_traffic]
    omega
  · unfold traffic_label
    rw [if_neg (by norm_num)]


/-- C2 counterexample: at `last = open = 100` the change percent is zero,
yet `calculate_change` takes the `red` branch — zero change is classified
`Down`, not `Flat`, so the claimed `Flat` case does not exist in the code. -/
theorem calculate_change_zero_not_flat :
    colorToClass (calculate_change "BTC-USDT" 100 100 100 100 (format_price 100)).2 =
      Classification.Down ∧ Classification.Down ≠ Classification.Flat := by
  constructor
  · unfold calculate_change
    rw [if_pos (by norm_num), if_neg (by norm_num)]
    rfl
  · decide

/-- C2 (amended): when `open > 0` the derived change percent is exactly
`(last - open) / open * 100`, a strictly positive change is classified `Up`
and a non-positive change (zero included) is classified `Down`; when
`open ≤ 0` no percent is emitted and the classification is `Unknown`.
There is no `Flat` classification. -/
theorem calculate_change_classification (pair : String)
    (last_price open_price high_24h low_24h : ℚ) (fp : String) :
    (0 < open_price →
      changePercent last_price open_price =
        some ((last_price - open_price) / open_price * 100) ∧
      (0 < (last_price - open_price) / open_price * 100 →
        colorToClass (calculate_change pair last_price open_price high_24h low_24h fp).2 =
          Classification.Up) ∧
      ((last_price - open_price) / open_price * 100 ≤ 0 →
        colorToClass (calculate_change pair last_price open_price high_24h low_24h fp).2 =
          Classification.Down)) ∧
    (open_price ≤ 0 →
      changePercent last_price open_price = none ∧
      colorToClass (calculate_change pair last_price open_price high_24h low_24h fp).2 =
        Classification.Unknown) := by
  constructor
  · intro hopen
    refine ⟨by simp [changePercent, hopen], ?_, ?_⟩
    · intro hpos
      unfold calculate_change
      rw [if_pos hopen, if_pos hpos]
      rfl
    · intro hnonpos
      unfold calculate_change
      rw [if_pos hopen, if_neg (not_lt.2 hnonpos)]
      rfl
  · intro hle
    have hno : ¬ 0 < open_price := not_lt.2 hle
    refine ⟨by simp [changePercent, hno], ?_⟩
    unfold calculate_change
    rw [if_neg hno]
    rfl

/-- Witness for the amended C2 at the spec's own test values. -/
theorem calculate_change_classification_witness :
    (changePercent 110 100 = some 10 ∧
      colorToClass (calculate_change "BTCUSDT" 110 100 110 90 "p").2 = Classification.Up) ∧
    changePercent 90 0 = none := by
  have h1 := (calculate_change_classification "BTCUSDT" 110 100 110 90 "p").1 (by norm_num)
  have h2 := (calculate_change_classification "BTCUSDT" 90 0 110 90 "p").2 (by norm_num)
  refine ⟨⟨?_, h1.2.1 (by norm_num)⟩, h2.1⟩
  rw [h1.1]
  norm_num

/-- C3 counterexample: a Venue B frame whose price fields are all absent
still yields an update (with every price defaulted to `0`), and a Venue A
frame with a negative `last` price also yields an update — the claimed
rejection of absent and negative prices does not happen. -/
theorem binance_defaulted_update_built :
    (handle_binance_ticker_update ["BTCUSDT"]
        ⟨some "BTCUSDT", none, none, none, none, none, none, none, none⟩).isSome = true ∧
    (handle_okx_ticker_update
        ⟨some "BTC-USDT-SWAP", some (RawField.num (-1)), some (RawField.num 1),
         some (RawField.num 1), some (RawField.num 1)⟩).isSome = true := by
  constructor <;> rfl

/-- C3 (amended): the Venue A handler builds an update exactly when
`instId` is present and all four price fields are present and parse as
numbers — sign and finiteness are never checked; any numeric `last`
(negative included) is accepted; and the Venue B handler substitutes `0`
for absent price fields, building an update from wholly defaulted prices. -/
theorem ticker_validation_actual :
    (∀ t : OkxTicker,
      (handle_okx_ticker_update t).isSome = true ↔
        t.instId.isSome = true ∧ (t.last.bind floatOf).isSome = true ∧
        (t.open24h.bind floatOf).isSome = true ∧ (t.high24h.bind floatOf).isSome = true ∧
        (t.low24h.bind floatOf).isSome = true) ∧
    (∀ q : ℚ, (handle_okx_ticker_update
        ⟨some "X", some (RawField.num q), some (RawField.num 1), some (RawField.num 1),
         some (RawField.num 1)⟩).isSome = true) ∧
    (∀ p sym : String, clean_pair p = sym →
      handle_binance_ticker_update [p]
          ⟨some sym, none, none, none, none, none, none, none, none⟩
        = some (p, (calculate_change p 0 0 0 0 (format_price 0)).1,
            (calculate_change p 0 0 0 0 (format_price 0)).2)) := by
  refine ⟨?_, ?_, ?_⟩
  · intro t
    cases hid : t.instId <;>
      cases hl : t.last.bind floatOf <;>
        cases ho : t.open24h.bind floatOf <;>
          cases hh : t.high24h.bind floatOf <;>
            cases hlo : t.low24h.bind floatOf <;>
              simp [handle_okx_ticker_update, hid, hl, ho, hh, hlo]
  · intro q
    rfl
  · intro p sym hmatch
    unfold handle_binance_ticker_update binanceMatchLoop
    simp only [Option.getD_some]
    rw [if_pos hmatch]
    rfl

/-- Witness for the amended C3: a negative Venue A price and a wholly
defaulted Venue B frame both produce updates. -/
theorem ticker_validation_actual_witness :
    (handle_okx_ticker_update
        ⟨some "X", some (RawField.num (-5)), some (RawField.num 1), some (RawField.num 1),
         some (RawField.num 1)⟩).isSome = true ∧
    handle_binance_ticker_update ["BTC-USDT-SWAP"]
        ⟨some "BTCUSDT", none, none, none, none, none, none, none, none⟩
      = some ("BTC-USDT-SWAP",
          (calculate_change "BTC-USDT-SWAP" 0 0 0 0 (format_price 0)).1,
          (calculate_change "BTC-USDT-SWAP" 0 0 0 0 (format_price 0)).2) :=
  ⟨ticker_validation_actual.2.1 (-5),
   ticker_validation_actual.2.2 "BTC-USDT-SWAP" "BTCUSDT" (by decide)⟩

/-- C4 counterexample: the outbound Venue B channel for `BTC-USDT-SWAP` is
`btc-usdt-swap@ticker` — the identifier is only lower-cased; separators and
the `SWAP` suffix are not removed, so the claimed `btcusdt@ticker` is not
produced. -/
theorem binance_channel_no_normalization :
    binanceChannel "BTC-USDT-SWAP" = "btc-usdt-swap@ticker" ∧
    binanceChannel "BTC-USDT-SWAP" ≠ "btcusdt@ticker" := by
  constructor <;> decide

/-- C4 (amended): the subscription channel is produced by lower-casing
alone (`pair.lower() + "@ticker"`, no suffix or separator removal), while
inbound matching applies a different normalization (drop `-`, drop `SWAP`,
upper-case); the two agree — and inbound matching recovers the subscribed
identifier — exactly for identifiers already in Venue B native form
(upper-case, no separators, no `SWAP`), such as `BTCUSDT`. -/
theorem binance_channel_lowercase_only (p : String)
    (hdash : p.data.filter (fun ch => ch != '-') = p.data)
    (hswap : removeSwapAux p.data = p.data)
    (hupper : p.data.map Char.toUpper = p.data) :
    clean_pair p = p ∧ binanceChannel p = ⟨p.data.map Char.toLower⟩ ++ "@ticker" := by
  constructor
  · unfold clean_pair
    rw [hdash, hswap, hupper]
  · rfl

/-- Witness for the amended C4 at the Venue B native identifier `BTCUSDT`. -/
theorem binance_channel_lowercase_only_witness :
    clean_pair "BTCUSDT" = "BTCUSDT" ∧
    binanceChannel "BTCUSDT" = ⟨("BTCUSDT").data.map Char.toLower⟩ ++ "@ticker" :=
  binance_channel_lowercase_only "BTCUSDT" (by decide) (by decide) (by decide)

/-- C5: instrument `BTC-USDT-SWAP` normalizes to inbound symbol `BTCUSDT`
(upper-cased, separators and `SWAP` removed), and an inbound Venue B frame
whose symbol matches no subscribed instrument is silently dropped: the
handler totalizes to `none`, raising nothing, so the session continues. -/
theorem binance_unmatched_silently_dropped (selected_pairs : List String) (t : BinanceTicker)
    (hno : ∀ p ∈ selected_pairs, clean_pair p ≠ t.s.getD "") :
    handle_binance_ticker_update selected_pairs t = none ∧
    clean_pair "BTC-USDT-SWAP" = "BTCUSDT" ∧
    (handle_binance_ticker_update ["BTC-USDT-SWAP"]
        ⟨some "BTCUSDT", some (RawField.num 110), none, some (RawField.num 100), none,
         some (RawField.num 120), none, some (RawField.num 90), none⟩).isSome = true := by
  exact ⟨binanceMatchLoop_no_match _ _ _ hno, by decide, rfl⟩

/-- Witness for C5: a frame for the unsubscribed symbol `XRPUSDT` is
dropped while `BTC-USDT-SWAP` is the only subscription. -/
theorem binance_unmatched_silently_dropped_witness :
    handle_binance_ticker_update ["BTC-USDT-SWAP"]
        ⟨some "XRPUSDT", some (RawField.num 1), none, some (RawField.num 1), none,
         some (RawField.num 1), none, some (RawField.num 1), none⟩ = none ∧
    clean_pair "BTC-USDT-SWAP" = "BTCUSDT" ∧
    (handle_binance_ticker_update ["BTC-USDT-SWAP"]
        ⟨some "BTCUSDT", some (RawField.num 110), none, some (RawField.num 100), none,
         some (RawField.num 120), none, some (RawField.num 90), none⟩).isSome = true :=
  binance_unmatched_silently_dropped ["BTC-USDT-SWAP"] _ (by decide)

/-- C6: for every non-negative price, `format_price` renders with exactly
2 decimals and a thousands separator when `p ≥ 1000`, exactly 4 decimals
when `1 ≤ p < 1000`, exactly 6 when `0.0001 ≤ p < 1`, and exactly 8
otherwise. -/
theorem format_price_decimals (p : ℚ) (_hp : 0 ≤ p) :
    decimalCount (format_price p) =
      (if 1000 ≤ p then 2 else if 1 ≤ p then 4 else if 0.0001 ≤ p then 6 else 8) ∧
    (1000 ≤ p → hasComma (format_price p)) := by
  constructor
  · unfold format_price
    split_ifs <;>
      simp [decimalCount_formatGrouped, decimalCount_formatFixed]
  · intro h1000
    unfold format_price
    rw [if_pos h1000]
    exact hasComma_formatGrouped h1000

/-- Witness for C6 at the grouped-branch price `1234`. -/
theorem format_price_decimals_witness :
    decimalCount (format_price 1234) = 2 ∧ hasComma (format_price 1234) := by
  have h := format_price_decimals 1234 (by norm_num)
  have h1 := h.1
  rw [if_pos (by norm_num : (1000 : ℚ) ≤ 1234)] at h1
  exact ⟨h1, h.2 (by norm_num)⟩

/-- C9: a frame missing its `last` field neither crashes the handler nor
produces an update nor touches the per-instrument history, and any
subsequent frame is processed exactly as if the malformed frame had never
arrived. -/
theorem malformed_frame_nonfatal (st : NSState) (bad good : OkxTicker)
    (hmal : bad.last = none) :
    handle_ticker_update st bad = (st, none) ∧
    handle_ticker_update (handle_ticker_update st bad).1 good =
      handle_ticker_update st good := by
  have h1 : handle_ticker_update st bad = (st, none) := by
    unfold handle_ticker_update
    cases hid : bad.instId with
    | none => simp [hid]
    | some pair => simp [hid, hmal]
  exact ⟨h1, by rw [h1]⟩

/-- Witness for C9: a malformed frame followed by a well-formed frame for
the same instrument, which is still delivered. -/
theorem malformed_frame_nonfatal_witness :
    handle_ticker_update ⟨100, [("BTC-USDT-SWAP", [])]⟩
        ⟨some "BTC-USDT-SWAP", none, some (RawField.num 100), none, none⟩ =
      (⟨100, [("BTC-USDT-SWAP", [])]⟩, none) ∧
    (handle_ticker_update
        (handle_ticker_update ⟨100, [("BTC-USDT-SWAP", [])]⟩
          ⟨some "BTC-USDT-SWAP", none, some (RawField.num 100), none, none⟩).1
        ⟨some "BTC-USDT-SWAP", some (RawField.num 110), some (RawField.num 100), none,
         none⟩).2.isSome = true := by
  have h := malformed_frame_nonfatal ⟨100, [("BTC-USDT-SWAP", [])]⟩
    ⟨some "BTC-USDT-SWAP", none, some (RawField.num 100), none, none⟩
    ⟨some "BTC-USDT-SWAP", some (RawField.num 110), some (RawField.num 100), none, none⟩ rfl
  refine ⟨h.1, ?_⟩
  rw [h.2]
  rfl

/-- C10: the Venue B handler scans the selected list in order and only the
first instrument normalizing to the inbound symbol is ever handled — the
result over `l₁ ++ p :: l₂` (with no match in `l₁`) equals the result over
`[p]` alone, so at most one update is produced and later duplicates in
`l₂` never receive it. -/
theorem binance_first_match_only (l₁ l₂ : List String) (p : String) (t : BinanceTicker)
    (hbefore : ∀ q ∈ l₁, clean_pair q ≠ t.s.getD "")
    (hmatch : clean_pair p = t.s.getD "") :
    handle_binance_ticker_update (l₁ ++ p :: l₂) t = handle_binance_ticker_update [p] t ∧
    ∀ r ∈ handle_binance_ticker_update (l₁ ++ p :: l₂) t, r.1 = p := by
  have key : handle_binance_ticker_update (l₁ ++ p :: l₂) t =
      handle_binance_ticker_update [p] t := by
    unfold handle_binance_ticker_update
    induction l₁ with
    | nil =>
      simp only [List.nil_append, binanceMatchLoop]
      rw [if_pos hmatch, if_pos hmatch]
    | cons q rest ih =>
      simp only [List.cons_append, binanceMatchLoop]
      rw [if_neg (hbefore q (List.mem_cons_self _ _))]
      exact ih fun x hx => hbefore x (List.mem_cons_of_mem _ hx)
  refine ⟨key, ?_⟩
  intro r hr
  rw [key] at hr
  unfold handle_binance_ticker_update binanceMatchLoop at hr
  rw [if_pos hmatch] at hr
  rcases h1 : binanceField t.c t.lastPrice with - | lastq
  · simp [h1] at hr
  rcases h2 : binanceField t.o t.openPrice with - | openq
  · simp [h1, h2] at hr
  rcases h3 : binanceField t.h t.highPrice with - | highq
  · simp [h1, h2, h3] at hr
  rcases h4 : binanceField t.l t.lowPrice with - | lowq
  · simp [h1, h2, h3, h4] at hr
  simp only [h1, h2, h3, h4] at hr
  simp at hr
  subst hr
  rfl

/-- Witness for C10: with two selected instruments both normalizing to
`BTCUSDT`, only the earlier one receives the update. -/
theorem binance_first_match_only_witness :
    handle_binance_ticker_update ["ETH-USDT-SWAP", "BTC-USDT-SWAP", "BTCUSDT"]
        ⟨some "BTCUSDT", some (RawField.num 110), none, some (RawField.num 100), none,
         some (RawField.num 120), none, some (RawField.num 90), none⟩ =
      handle_binance_ticker_update ["BTC-USDT-SWAP"]
        ⟨some "BTCUSDT", some (RawField.num 110), none, some (RawField.num 100), none,
         some (RawField.num 120), none, some (RawField.num 90), none⟩ ∧
    ∀ r ∈ handle_binance_ticker_update ["ETH-USDT-SWAP", "BTC-USDT-SWAP", "BTCUSDT"]
        ⟨some "BTCUSDT", some (RawField.num 110), none, some (RawField.num 100), none,
         some (RawField.num 120), none, some (RawField.num 90), none⟩,
      r.1 = "BTC-USDT-SWAP" :=
  binance_first_match_only ["ETH-USDT-SWAP"] ["BTCUSDT"] "BTC-USDT-SWAP"
    ⟨some "BTCUSDT", some (RawField.num 110), none, some (RawField.num 100), none,
     some (RawField.num 120), none, some (RawField.num 90), none⟩
    (by decide) (by decide)


/-- Witness for C7 at the spec's own test: capacity 3 fed `[1,2,3,4]`. -/
theorem price_history_fifo_witness :
    feedPrices 3 [1, 2, 3, 4] = [2, 3, 4] ∧ (feedPrices 3 [1, 2, 3, 4]).length ≤ 3 := by
  have h := price_history_fifo 3 (by norm_num) [1, 2, 3, 4]
  refine ⟨?_, h.2⟩
  rw [h.1]
  rfl

end Stare
